import Mathlib

/-!
Shallow embedding of the distress-detector repository's Reddit collection
scripts (src/reddit-scrape/content.js and the unnamed near-duplicate
variants), together with proofs of the specification claims about them.

Conventions of the embedding:
* JS strings are Lean `String`s (sequences of Unicode scalar values); where
  byte-level behaviour matters (Base64 / UTF-8) bytes are `Nat` values.
* A rendered `<shreddit-post>` DOM element is abstracted as a `PostElement`
  record holding exactly the query results the extraction code reads.
* The module-level mutable globals (`collectedPosts`, `currentBatch`,
  `cumulativeCount`) become a `ScrState` record threaded explicitly; the
  JS `Map` keyed by post id becomes a list of records whose `postId` keys
  are kept unique by the same `has`-check the source performs.
* `Date.now()` readings and the elements returned by `querySelectorAll`
  are supplied per cycle by the environment (`CycleInput`).
-/

/-- Model of JavaScript `String.prototype.trim`: strip leading and trailing
whitespace characters (the embedding uses the common ASCII whitespace
subset; no claim depends on the exact whitespace set). -/
def isJsSpace (c : Char) : Bool :=
  c = ' ' || c = '\t' || c = '\n' || c = '\r' || c.toNat = 11 || c.toNat = 12

/-- JS `s.trim()`. -/
def jsTrim (s : String) : String :=
  String.mk (((s.data.dropWhile isJsSpace).reverse.dropWhile isJsSpace).reverse)

/-- JS `a || b` where `a` is `getAttribute`'s result (`null` or a string):
`null` and the empty string are falsy, any other string is returned as is. -/
def jsOr (a : Option String) (b : String) : String :=
  match a with
  | none => b
  | some s => if s = "" then b else s

/-- An indicator element carrying a `number` attribute and a text content
(`faceplate-number` in the page markup): the extraction code reads
`el.getAttribute('number') || el.textContent.trim()`. -/
structure VoteEl where
  numberAttr : Option String
  text : String
deriving DecidableEq

/-- Abstraction of one rendered `<shreddit-post>` element: exactly the
DOM queries `extractPostData` performs, as environment-supplied data.
`none` models a selector that matched nothing / a missing attribute. -/
structure PostElement where
  /-- `post.getAttribute('id')`; `none` models `null`. -/
  id : Option String
  /-- whether `post.shadowRoot` is non-null. -/
  shadowAttached : Bool
  /-- `textContent` of `a[slot="title"]`, when that element exists. -/
  titleText : Option String
  /-- `textContent`s of the `p` children of `a[slot="text-body"] div.md`,
  when that container exists. -/
  bodyParagraphs : Option (List String)
  /-- the vote indicator `[data-post-click-location="vote"]
  faceplate-number[pretty]`, when present. -/
  scoreEl : Option VoteEl
  /-- the comments indicator, when present. -/
  commentEl : Option VoteEl
  /-- `textContent` of the flair content node, when present. -/
  flairText : Option String
deriving DecidableEq

/-- One harvested record, `{ postId, title, content, score, comments, flair }`
as built by src/reddit-scrape/content.js lines 32-80. -/
structure PostData where
  postId : String
  title : String
  content : String
  score : String
  comments : String
  flair : String
deriving DecidableEq

/-- The module-level globals of content.js lines 26-29: the deduplication
`Map` (as an insert-ordered list with unique `postId` keys), the active
batch array, and the cumulative collected count. -/
structure ScrState where
  collectedPosts : List PostData
  currentBatch : List PostData
  cumulativeCount : Nat
deriving DecidableEq

/-- The value of the globals right after script injection
(content.js lines 26-29): empty map, empty batch, zero count. Note the
source initialises these once per script load, not once per run. -/
def initialScrState : ScrState := ⟨[], [], 0⟩

/-- Field extraction of content.js `extractPostData` (lines 38-76), given
the (non-empty) post id: each field independently defaults to its sentinel.
Paragraphs are joined with `'\n'` in this variant (line 48). -/
def extractFields (postId : String) (post : PostElement) : PostData :=
  let title := match post.titleText with
    | some t => jsTrim t
    | none => "Not found"
  let content := match post.bodyParagraphs with
    | some ps => String.intercalate "\n" (ps.map jsTrim)
    | none => "Not found"
  let score := match post.scoreEl with
    | some el => jsOr el.numberAttr (jsTrim el.text)
    | none => "Not found"
  let comments := match post.commentEl with
    | some el => jsOr el.numberAttr (jsTrim el.text)
    | none => "Not found"
  let flair := match post.flairText with
    | some t => jsTrim t
    | none => "No flair"
  ⟨postId, title, content, score, comments, flair⟩

/-- content.js `extractPostData` (lines 32-80) as a state transition:
skip when the id is `null`/empty or already collected or the shadow root
is not attached; otherwise register the record in the store and append it
to the current batch in one step. -/
def extractPostData (σ : ScrState) (post : PostElement) : ScrState :=
  match post.id with
  | none => σ
  | some postId =>
    if postId = "" then σ
    else if σ.collectedPosts.any (fun p => p.postId == postId) then σ
    else if !post.shadowAttached then σ
    else
      let postData := extractFields postId post
      ⟨σ.collectedPosts ++ [postData], σ.currentBatch ++ [postData], σ.cumulativeCount⟩

/-- The content computation of the part_001 variant (lines 43-52), which
joins the trimmed paragraph texts with `'\n\n'` (a blank line) instead of
content.js's single `'\n'`; part_002 lines 285-295 are identical. -/
def extractContentV1 (post : PostElement) : String :=
  match post.bodyParagraphs with
  | some ps => String.intercalate "\n\n" (ps.map jsTrim)
  | none => "Not found"

/-- `post.getAttribute('id')` coerced to the identifier string actually
seen (the default is never used on elements the code accepts). -/
def idOf (e : PostElement) : String := e.id.getD ""

/-- An element the extractor accepts rather than skips: it exposes a
non-empty identifier and its shadow content is attached. -/
def validElement (e : PostElement) : Bool :=
  (match e.id with
   | some s => !(s == "")
   | none => false) && e.shadowAttached

/-! ## Batch Encoder: delimited text (CSV) -/

/-- JS `.replace(/"/g, '""')`: double every quote character. -/
def escQ : List Char → List Char
  | [] => []
  | c :: rest => if c = '"' then '"' :: '"' :: escQ rest else c :: escQ rest

/-- One CSV data row of `generateCSVFromArray` (content.js line 86):
id, title and content are quote-doubled; score and comments are
interpolated bare (no `.replace`); every field is wrapped in quotes;
the row ends with `'\n'`. -/
def csvRow (post : PostData) : List Char :=
  '"' :: (escQ post.postId.data ++ '"' :: ',' :: '"' ::
    (escQ post.title.data ++ '"' :: ',' :: '"' ::
      (escQ post.content.data ++ '"' :: ',' :: '"' ::
        (post.score.data ++ '"' :: ',' :: '"' ::
          (post.comments.data ++ ['"', '\n'])))))

/-- content.js `generateCSVFromArray` (lines 83-89): header row then one
row per record, accumulated by string concatenation. -/
def generateCSVFromArray (postsArray : List PostData) : String :=
  postsArray.foldl (fun csv post => csv ++ String.mk (csvRow post))
    "Post ID,Title,Content,Votes,Comments\n"

/-- The row the specification describes: every one of the five fields
quote-doubled and quote-wrapped (the claim's reading of standard
delimited-text escaping, for comparison with `csvRow`). -/
def csvRowSpec (post : PostData) : List Char :=
  '"' :: (escQ post.postId.data ++ '"' :: ',' :: '"' ::
    (escQ post.title.data ++ '"' :: ',' :: '"' ::
      (escQ post.content.data ++ '"' :: ',' :: '"' ::
        (escQ post.score.data ++ '"' :: ',' :: '"' ::
          (escQ post.comments.data ++ ['"', '\n'])))))

/-- Scan the interior of an RFC-4180 quoted field: a doubled quote is one
literal quote, a lone quote closes the field; returns the field text and
the remaining input. -/
def scanQuoted : List Char → Option (List Char × List Char)
  | [] => none
  | c :: rest =>
    if c = '"' then
      match rest with
      | [] => some ([], [])
      | d :: rest2 =>
        if d = '"' then Option.map (fun p => ('"' :: p.1, p.2)) (scanQuoted rest2)
        else some ([], rest)
    else Option.map (fun p => (c :: p.1, p.2)) (scanQuoted rest)

/-- Parse one quoted field: expect the opening quote, then scan. -/
def parseField (l : List Char) : Option (List Char × List Char) :=
  match l with
  | c :: rest => if c = '"' then scanQuoted rest else none
  | [] => none

/-- Expect a field separator. -/
def expectComma (l : List Char) : Option (List Char) :=
  match l with
  | c :: rest => if c = ',' then some rest else none
  | [] => none

/-- A standard RFC-4180 parser for one five-field data row (the shape
every `csvRow` output claims to have): five quoted fields separated by
commas, terminated by the row's newline. -/
def parseRow5 (l : List Char) : Option (List (List Char)) := do
  let p1 ← parseField l
  let r1 ← expectComma p1.2
  let p2 ← parseField r1
  let r2 ← expectComma p2.2
  let p3 ← parseField r2
  let r3 ← expectComma p3.2
  let p4 ← parseField r3
  let r4 ← expectComma p4.2
  let p5 ← parseField r4
  match p5.2 with
  | ['\n'] => some [p1.1, p2.1, p3.1, p4.1, p5.1]
  | _ => none

/-! ## Batch Encoder: structured text (JSON, `JSON.stringify(arr, null, 2)`) -/

/-- Lowercase hex digit, for JSON `\u00xx` escapes. -/
def hexDigitLower (n : Nat) : Char :=
  Char.ofNat (if n < 10 then 48 + n else 87 + n)

/-- `JSON.stringify` escaping of one character inside a string literal. -/
def jsonEscapeChar (c : Char) : List Char :=
  if c = '"' then ['\\', '"']
  else if c = '\\' then ['\\', '\\']
  else if c = '\n' then ['\\', 'n']
  else if c = '\r' then ['\\', 'r']
  else if c = '\t' then ['\\', 't']
  else if c.toNat = 8 then ['\\', 'b']
  else if c.toNat = 12 then ['\\', 'f']
  else if c.toNat < 32 then
    ['\\', 'u', '0', '0', hexDigitLower (c.toNat / 16), hexDigitLower (c.toNat % 16)]
  else [c]

/-- `JSON.stringify` rendering of a string value's characters. -/
def jsonEscapeString (s : String) : List Char :=
  s.data.flatMap jsonEscapeChar

/-- One record as pretty-printed by `JSON.stringify(arr, null, 2)` at array
nesting depth 1: keys in insertion order, 2-space indentation. -/
def jsonPostObject (post : PostData) : List Char :=
  "  \x7b\n    \"postId\": \"".data ++ jsonEscapeString post.postId ++
  "\",\n    \"title\": \"".data ++ jsonEscapeString post.title ++
  "\",\n    \"content\": \"".data ++ jsonEscapeString post.content ++
  "\",\n    \"score\": \"".data ++ jsonEscapeString post.score ++
  "\",\n    \"comments\": \"".data ++ jsonEscapeString post.comments ++
  "\",\n    \"flair\": \"".data ++ jsonEscapeString post.flair ++
  "\"\n  \x7d".data

/-- content.js `getJSONData` (lines 92-94), i.e.
`JSON.stringify(postsArray, null, 2)`: `"[]"` on the empty array, else the
pretty-printed array of objects. -/
def getJSONData (postsArray : List PostData) : String :=
  match postsArray with
  | [] => "[]"
  | _ => String.mk ("[\n".data ++
      List.intercalate ",\n".data (postsArray.map jsonPostObject) ++ "\n]".data)

/-! ## Remote Uploader: Unicode-safe Base64 (content.js lines 3-9)

`base64EncodeUnicode(str)` is
`btoa(encodeURIComponent(str).replace(/%([0-9A-F]{2})/g, hexToChar))`.
The embedding models each platform builtin: `encodeURIComponent` emits
the UTF-8 percent-encoding of the string (unreserved characters kept
literal), the `replace` turns each `%HH` back into the character of that
code, and `btoa` Base64-encodes the resulting char codes as bytes. -/

/-- UTF-8 encoding of one Unicode scalar value. -/
def utf8EncodeChar (c : Char) : List Nat :=
  let v := c.toNat
  if v < 128 then [v]
  else if v < 2048 then [192 + v / 64, 128 + v % 64]
  else if v < 65536 then [224 + v / 4096, 128 + v / 64 % 64, 128 + v % 64]
  else [240 + v / 262144, 128 + v / 4096 % 64, 128 + v / 64 % 64, 128 + v % 64]

/-- The UTF-8 byte sequence of a string. -/
def utf8Bytes (s : String) : List Nat :=
  s.data.flatMap utf8EncodeChar

/-- Uppercase hex digit (what `encodeURIComponent` emits). -/
def hexDigit (n : Nat) : Char :=
  Char.ofNat (if n < 10 then 48 + n else 55 + n)

/-- Matches the regex class `[0-9A-F]`. -/
def isHexUpper (c : Char) : Bool :=
  (48 ≤ c.toNat && c.toNat ≤ 57) || (65 ≤ c.toNat && c.toNat ≤ 70)

/-- `parseInt(d, 16)` on one `[0-9A-F]` digit. -/
def hexVal (c : Char) : Nat :=
  if c.toNat ≤ 57 then c.toNat - 48 else c.toNat - 55

/-- `%HH` percent-encoding of one byte, uppercase hex. -/
def percentEncodeByte (b : Nat) : List Char :=
  ['%', hexDigit (b / 16), hexDigit (b % 16)]

/-- The characters `encodeURIComponent` leaves unescaped:
`A-Z a-z 0-9` and (by code) `- _ . ! ~ * ' ( )`
(codes 45 95 46 33 126 42 39 40 41). -/
def isUnreservedURI (c : Char) : Bool :=
  (65 ≤ c.toNat && c.toNat ≤ 90) || (97 ≤ c.toNat && c.toNat ≤ 122) ||
  (48 ≤ c.toNat && c.toNat ≤ 57) ||
  [45, 95, 46, 33, 126, 42, 39, 40, 41].contains c.toNat

/-- `encodeURIComponent` on one scalar value: literal if unreserved,
else the percent-encoding of each of its UTF-8 bytes. -/
def encodeURIComponentChar (c : Char) : List Char :=
  if isUnreservedURI c then [c]
  else (utf8EncodeChar c).flatMap percentEncodeByte

/-- Platform `encodeURIComponent` (on strings of scalar values). -/
def encodeURIComponent (s : String) : List Char :=
  s.data.flatMap encodeURIComponentChar

/-- The `.replace(/%([0-9A-F]{2})/g, (m, p1) => fromCharCode(parseInt(p1, 16)))`
step: left-to-right scan replacing each `%HH` (uppercase hex) match by the
character with that code. -/
def percentDecode : List Char → List Char
  | '%' :: h1 :: h2 :: rest2 =>
    if isHexUpper h1 && isHexUpper h2 then
      Char.ofNat (16 * hexVal h1 + hexVal h2) :: percentDecode rest2
    else '%' :: percentDecode (h1 :: h2 :: rest2)
  | c :: rest => c :: percentDecode rest
  | [] => []
termination_by l => l.length
decreasing_by all_goals (simp; try omega)

/-- The Base64 alphabet. -/
def base64Table : List Char :=
  "ABCDEFGHIJKLMNOPQRSTUVWXYZabcdefghijklmnopqrstuvwxyz0123456789+/".data

/-- Base64 digit for a 6-bit value. -/
def base64Char (n : Nat) : Char := base64Table.getD n 'A'

/-- Standard Base64 of a byte sequence, with `'='` padding. -/
def base64Encode : List Nat → List Char
  | [] => []
  | [b1] => [base64Char (b1 / 4), base64Char (b1 % 4 * 16), '=', '=']
  | [b1, b2] => [base64Char (b1 / 4), base64Char (b1 % 4 * 16 + b2 / 16),
      base64Char (b2 % 16 * 4), '=']
  | b1 :: b2 :: b3 :: rest =>
    base64Char (b1 / 4) :: base64Char (b1 % 4 * 16 + b2 / 16) ::
    base64Char (b2 % 16 * 4 + b3 / 64) :: base64Char (b3 % 64) ::
    base64Encode rest

/-- Platform `btoa`: Base64 over the char codes of a binary string (all
codes produced by the pipeline are < 256). -/
def btoa (bin : List Char) : List Char :=
  base64Encode (bin.map Char.toNat)

/-- content.js `base64EncodeUnicode` (lines 3-9). -/
def base64EncodeUnicode (str : String) : String :=
  String.mk (btoa (percentDecode (encodeURIComponent str)))

/-! ## Remote Uploader: filenames (content.js `autoUploadBatch`, lines 126-138) -/

/-- The two filenames `autoUploadBatch` produces for a batch, given the
source context (subreddit) and timestamp strings it interpolates:
`` `${subreddit}_${timestamp}_${count}.csv` `` and `.json`. -/
def autoUploadBatchFileNames (subreddit timestamp : String)
    (batchPosts : List PostData) : String × String :=
  let count := batchPosts.length
  (subreddit ++ "_" ++ timestamp ++ "_" ++ toString count ++ ".csv",
   subreddit ++ "_" ++ timestamp ++ "_" ++ toString count ++ ".json")

/-! ## Collector Loop (content.js `collectPostsBatched`, lines 340-381) -/

/-- The four numeric collection parameters of one run (already validated
and converted: times in milliseconds). -/
structure RunParams where
  totalTimeMs : Nat
  targetTotalPosts : Nat
  batchTimeMs : Nat
  batchSize : Nat
deriving DecidableEq

/-- What the environment supplies to one `while`-loop cycle: the rendered
post elements `querySelectorAll` returns after the scroll settles, and
the `Date.now()` readings taken at the loop guard, at the flush-condition
check, and at the post-flush `batchStartTime = Date.now()`. -/
structure CycleInput where
  posts : List PostElement
  tGuard : Nat
  tCheck : Nat
  tReset : Nat
deriving DecidableEq

/-- The loop-local state: the globals plus the local `batchStartTime`. -/
structure LoopState where
  st : ScrState
  batchStartTime : Nat
deriving DecidableEq

/-- One `Running` cycle body after the scroll/wait (content.js lines
359-368): extract every rendered element, then check the flush condition
once; on flush, upload the batch (returned as `some batch`), add its
length to the cumulative count, clear the batch, reset the batch timer. -/
def runCycle (p : RunParams) (ls : LoopState) (ci : CycleInput) :
    LoopState × Option (List PostData) :=
  let st := ci.posts.foldl extractPostData ls.st
  if ci.tCheck - ls.batchStartTime ≥ p.batchTimeMs ∨
      st.currentBatch.length ≥ p.batchSize then
    (⟨⟨st.collectedPosts, [], st.cumulativeCount + st.currentBatch.length⟩,
      ci.tReset⟩, some st.currentBatch)
  else (⟨st, ls.batchStartTime⟩, none)

/-- The `while` loop (content.js lines 355-369): at the top of each cycle
check the termination guard (`cumulativeCount < targetTotalPosts` and
elapsed-since-start `< totalTimeMs`); while it holds, run cycles. The
cycle-input list is the finite trace the environment provides; the run
also stops when it is exhausted. Returns the final state and the flushed
batches in order. -/
def runLoop (p : RunParams) (overallStartTime : Nat) :
    LoopState → List CycleInput → LoopState × List (List PostData)
  | ls, [] => (ls, [])
  | ls, ci :: rest =>
    if ls.st.cumulativeCount < p.targetTotalPosts ∧
        ci.tGuard - overallStartTime < p.totalTimeMs then
      let step := runCycle p ls ci
      let r := runLoop p overallStartTime step.1 rest
      (r.1, step.2.toList ++ r.2)
    else (ls, [])

/-- One whole run of content.js `collectPostsBatched` (lines 351-374),
from the ambient globals `g` (the run itself does NOT reinitialise them;
only `overallStartTime`/`batchStartTime` are fresh locals): the loop,
then the final remainder flush (lines 371-374) which uploads and counts a
non-empty leftover batch but — in this variant — does not clear it. -/
def collectPostsBatched (p : RunParams) (startNow : Nat) (g : ScrState)
    (cycles : List CycleInput) : ScrState × List (List PostData) :=
  let r := runLoop p startNow ⟨g, startNow⟩ cycles
  if r.1.st.currentBatch.length > 0 then
    (⟨r.1.st.collectedPosts, r.1.st.currentBatch,
      r.1.st.cumulativeCount + r.1.st.currentBatch.length⟩,
     r.2 ++ [r.1.st.currentBatch])
  else (r.1.st, r.2)

/-! ## part_002's simpler collector (`collectPosts`, around lines 315-340) -/

/-- part_002's record shape: no flair field. -/
structure PostDataV2 where
  postId : String
  title : String
  content : String
  score : String
  comments : String
deriving DecidableEq

/-- part_002's field extraction (its `extractPostData` body): same as the
others except the paragraph join is `'\n\n'` and there is no flair. -/
def extractFieldsV2 (postId : String) (post : PostElement) : PostDataV2 :=
  let title := match post.titleText with
    | some t => jsTrim t
    | none => "Not found"
  let content := extractContentV1 post
  let score := match post.scoreEl with
    | some el => jsOr el.numberAttr (jsTrim el.text)
    | none => "Not found"
  let comments := match post.commentEl with
    | some el => jsOr el.numberAttr (jsTrim el.text)
    | none => "Not found"
  ⟨postId, title, content, score, comments⟩

/-- part_002's `extractPostData`: store-only (it has no batch). -/
def extractPostDataV2 (store : List PostDataV2) (post : PostElement) :
    List PostDataV2 :=
  match post.id with
  | none => store
  | some postId =>
    if postId = "" then store
    else if store.any (fun p => p.postId == postId) then store
    else if !post.shadowAttached then store
    else store ++ [extractFieldsV2 postId post]

/-- Environment input of one part_002 loop cycle: rendered elements and
the `Date.now()` reading at the loop guard. -/
structure CycleInputV2 where
  posts : List PostElement
  tGuard : Nat
deriving DecidableEq

/-- part_002's scroll loop: guard `collectedPosts.size < targetPostCount
&& elapsed < maxScrollTime && attempts < 1000` at the top of each cycle. -/
def collectPostsLoopV2 (maxScrollTime targetPostCount startTime : Nat) :
    List PostDataV2 → Nat → List CycleInputV2 → List PostDataV2
  | store, _, [] => store
  | store, attempts, ci :: rest =>
    if store.length < targetPostCount ∧ ci.tGuard - startTime < maxScrollTime ∧
        attempts < 1000 then
      collectPostsLoopV2 maxScrollTime targetPostCount startTime
        (ci.posts.foldl extractPostDataV2 store) (attempts + 1) rest
    else store

/-- part_002's `collectPosts`: its first statement is
`collectedPosts.clear()` (line 317), so whatever the store held before the
run — `initialStore` — the loop starts from the empty store. -/
def collectPosts (initialStore : List PostDataV2)
    (maxScrollTime targetPostCount startTime : Nat)
    (cycles : List CycleInputV2) : List PostDataV2 :=
  collectPostsLoopV2 maxScrollTime targetPostCount startTime [] 0 cycles

/-- Ids that are new relative to `seen`, first occurrence kept, scanning
left to right (the membership structure the dedup store builds). -/
def newIds (seen : List String) : List String → List String
  | [] => []
  | i :: rest =>
    if i ∈ seen then newIds seen rest else i :: newIds (i :: seen) rest

/-- Sum of the lengths of a list of flushed batches. -/
def sumLens (batches : List (List PostData)) : Nat :=
  (batches.map List.length).sum

/-! ## Helper lemmas -/

@[simp] theorem sumLens_nil : sumLens [] = 0 := rfl

@[simp] theorem sumLens_cons (b : List PostData) (l : List (List PostData)) :
    sumLens (b :: l) = b.length + sumLens l := by
  simp [sumLens]

@[simp] theorem sumLens_append (a b : List (List PostData)) :
    sumLens (a ++ b) = sumLens a + sumLens b := by
  simp [sumLens]

/-- Each extraction call either skips (state unchanged) or appends one and
the same record to both the store and the batch, leaving the count alone. -/
theorem extractPostData_shape (σ : ScrState) (post : PostElement) :
    extractPostData σ post = σ ∨
    ∃ pd, extractPostData σ post =
      ⟨σ.collectedPosts ++ [pd], σ.currentBatch ++ [pd], σ.cumulativeCount⟩ := by
  cases hid : post.id with
  | none => exact Or.inl (by simp [extractPostData, hid])
  | some pid =>
    by_cases h1 : pid = ""
    · exact Or.inl (by simp [extractPostData, hid, h1])
    · by_cases h2 : σ.collectedPosts.any (fun p => p.postId == pid)
      · exact Or.inl (by simp [extractPostData, hid, h1, h2])
      · by_cases h3 : post.shadowAttached
        · exact Or.inr ⟨extractFields pid post,
            by simp [extractPostData, hid, h1, h2, h3]⟩
        · exact Or.inl (by simp [extractPostData, hid, h1, h2, h3])

/-- Extraction over a cycle's elements grows the store and the batch by
the same amount. -/
theorem foldl_extract_delta (posts : List PostElement) (σ : ScrState) :
    (posts.foldl extractPostData σ).collectedPosts.length + σ.currentBatch.length
      = (posts.foldl extractPostData σ).currentBatch.length
        + σ.collectedPosts.length := by
  induction posts generalizing σ with
  | nil => simp only [List.foldl_nil]; omega
  | cons e rest ih =>
    simp only [List.foldl_cons]
    rcases extractPostData_shape σ e with h | ⟨pd, h⟩
    · rw [h]; exact ih σ
    · rw [h]
      have h2 := ih ⟨σ.collectedPosts ++ [pd], σ.currentBatch ++ [pd],
        σ.cumulativeCount⟩
      simp at h2 ⊢
      omega

/-- Extraction only ever appends to the store. -/
theorem foldl_extract_store_extend (posts : List PostElement) (σ : ScrState) :
    ∃ suf, (posts.foldl extractPostData σ).collectedPosts
      = σ.collectedPosts ++ suf := by
  induction posts generalizing σ with
  | nil => exact ⟨[], by simp⟩
  | cons e rest ih =>
    simp only [List.foldl_cons]
    rcases extractPostData_shape σ e with h | ⟨pd, h⟩
    · rw [h]; exact ih σ
    · rw [h]
      obtain ⟨suf, hsuf⟩ := ih ⟨σ.collectedPosts ++ [pd], σ.currentBatch ++ [pd],
        σ.cumulativeCount⟩
      exact ⟨pd :: suf, by simpa using hsuf⟩

/-- Extraction never touches the cumulative count. -/
theorem foldl_extract_cumulative (posts : List PostElement) (σ : ScrState) :
    (posts.foldl extractPostData σ).cumulativeCount = σ.cumulativeCount := by
  induction posts generalizing σ with
  | nil => rfl
  | cons e rest ih =>
    simp only [List.foldl_cons]
    rcases extractPostData_shape σ e with h | ⟨pd, h⟩
    · rw [h]; exact ih σ
    · rw [h]
      simpa using ih ⟨σ.collectedPosts ++ [pd], σ.currentBatch ++ [pd],
        σ.cumulativeCount⟩

/-- Store-length bookkeeping for one cycle: the store grows by exactly
what this cycle's flush (if any) plus the batch growth account for. -/
theorem runCycle_sum (p : RunParams) (ls : LoopState) (ci : CycleInput) :
    (runCycle p ls ci).1.st.collectedPosts.length + ls.st.currentBatch.length
      = ls.st.collectedPosts.length + sumLens (runCycle p ls ci).2.toList
        + (runCycle p ls ci).1.st.currentBatch.length := by
  have hd := foldl_extract_delta ci.posts ls.st
  simp only [runCycle]
  split_ifs with h
  · simp
    omega
  · simp
    omega

/-- Store-length bookkeeping for the whole loop. -/
theorem runLoop_sum (p : RunParams) (t0 : Nat) (cycles : List CycleInput)
    (ls : LoopState) :
    (runLoop p t0 ls cycles).1.st.collectedPosts.length
        + ls.st.currentBatch.length
      = ls.st.collectedPosts.length + sumLens (runLoop p t0 ls cycles).2
        + (runLoop p t0 ls cycles).1.st.currentBatch.length := by
  induction cycles generalizing ls with
  | nil => simp [runLoop]
  | cons ci rest ih =>
    simp only [runLoop]
    split_ifs with hg
    · have h1 := runCycle_sum p ls ci
      have h2 := ih (runCycle p ls ci).1
      simp only [sumLens_append]
      cases hstep : (runCycle p ls ci).2 with
      | none => rw [hstep] at h1; simp [hstep] at h1 ⊢; omega
      | some b => rw [hstep] at h1; simp [hstep] at h1 ⊢; omega
    · simp

/-! ## Claim theorems -/

/-- Claim C1: for every run of the batched collection loop (started on the
fresh globals), the sum of the lengths of all flushed batches, the final
remainder flush included, equals the final size of the deduplication
store: every record extracted into the store is flushed exactly once. -/
theorem C1_batch_flush_completeness (p : RunParams) (startNow : Nat)
    (cycles : List CycleInput) :
    sumLens (collectPostsBatched p startNow initialScrState cycles).2
      = (collectPostsBatched p startNow initialScrState
          cycles).1.collectedPosts.length := by
  have h := runLoop_sum p startNow cycles ⟨initialScrState, startNow⟩
  have e1 : initialScrState.currentBatch = [] := rfl
  have e2 : initialScrState.collectedPosts = [] := rfl
  simp only [e1, e2, List.length_nil, Nat.add_zero, Nat.zero_add] at h
  simp only [collectPostsBatched]
  split_ifs with hb
  · simp only [sumLens_append, sumLens_cons, sumLens_nil]
    omega
  · dsimp only
    omega

/-- Claim C2: in each cycle of the running loop the flush decision is made
exactly once, after extraction, and a flush occurs at the end of the cycle
if and only if the post-extraction active batch has length `≥ batchSize`
or the time elapsed since the last flush is `≥ batchTimeMs`; the flushed
batch is exactly the post-extraction active batch. -/
theorem C2_flush_threshold (p : RunParams) (ls : LoopState) (ci : CycleInput) :
    (runCycle p ls ci).2 =
      if (ci.posts.foldl extractPostData ls.st).currentBatch.length ≥ p.batchSize
          ∨ ci.tCheck - ls.batchStartTime ≥ p.batchTimeMs
      then some (ci.posts.foldl extractPostData ls.st).currentBatch
      else none := by
  unfold runCycle
  by_cases h1 : ci.tCheck - ls.batchStartTime ≥ p.batchTimeMs <;>
    by_cases h2 : (ci.posts.foldl extractPostData ls.st).currentBatch.length
        ≥ p.batchSize <;>
    simp [h1, h2]

/-! ## Deduplication-store lemmas (for claim C3) -/

/-- Unpack `validElement`. -/
theorem validElement_spec (e : PostElement) (h : validElement e = true) :
    ∃ s, e.id = some s ∧ s ≠ "" ∧ e.shadowAttached = true := by
  cases hid : e.id with
  | none => simp [validElement, hid] at h
  | some s =>
    simp only [validElement, hid, Bool.and_eq_true, Bool.not_eq_true',
      beq_eq_false_iff_ne, ne_eq] at h
    exact ⟨s, rfl, h.1, h.2⟩

/-- An element whose id is already in the store is skipped. -/
theorem extractPostData_skip (σ : ScrState) (e : PostElement) (s : String)
    (hid : e.id = some s) (hs : s ≠ "")
    (hmem : s ∈ σ.collectedPosts.map PostData.postId) :
    extractPostData σ e = σ := by
  have hany : σ.collectedPosts.any (fun p => p.postId == s) = true := by
    rw [List.any_eq_true]
    obtain ⟨p, hp, hps⟩ := List.mem_map.mp hmem
    exact ⟨p, hp, by simp [hps]⟩
  simp [extractPostData, hid, hs, hany]

/-- A valid element whose id is new is appended to store and batch. -/
theorem extractPostData_add (σ : ScrState) (e : PostElement) (s : String)
    (hid : e.id = some s) (hs : s ≠ "") (hsh : e.shadowAttached = true)
    (hmem : s ∉ σ.collectedPosts.map PostData.postId) :
    extractPostData σ e =
      ⟨σ.collectedPosts ++ [extractFields s e],
       σ.currentBatch ++ [extractFields s e], σ.cumulativeCount⟩ := by
  have hany : σ.collectedPosts.any (fun p => p.postId == s) = false := by
    rw [List.any_eq_false]
    intro p hp hps
    exact hmem (List.mem_map.mpr ⟨p, hp, by simpa using hps⟩)
  simp [extractPostData, hid, hs, hany, hsh]

/-- `newIds` only looks at `seen` through membership. -/
theorem newIds_congr (l : List String) : ∀ seen seen2 : List String,
    (∀ x, x ∈ seen ↔ x ∈ seen2) → newIds seen l = newIds seen2 l := by
  induction l with
  | nil => intro _ _ _; rfl
  | cons i rest ih =>
    intro seen seen2 hiff
    simp only [newIds]
    by_cases hm : i ∈ seen
    · rw [if_pos hm, if_pos ((hiff i).mp hm), ih _ _ hiff]
    · rw [if_neg hm, if_neg (fun hx => hm ((hiff i).mpr hx))]
      rw [ih (i :: seen) (i :: seen2) (fun x => by simp [hiff x])]

/-- The id column of the store after a sequence of extraction calls on
valid elements: the old ids followed by the first occurrences of the new
ones, in sighting order. -/
theorem foldl_extract_ids (elems : List PostElement) (σ : ScrState)
    (h : ∀ e ∈ elems, validElement e = true) :
    (elems.foldl extractPostData σ).collectedPosts.map PostData.postId
      = σ.collectedPosts.map PostData.postId
        ++ newIds (σ.collectedPosts.map PostData.postId) (elems.map idOf) := by
  induction elems generalizing σ with
  | nil => simp [newIds]
  | cons e rest ih =>
    obtain ⟨s, hid, hs, hsh⟩ := validElement_spec e (h e (by simp))
    have hrest : ∀ x ∈ rest, validElement x = true :=
      fun x hx => h x (List.mem_cons_of_mem _ hx)
    have hidof : idOf e = s := by simp [idOf, hid]
    simp only [List.foldl_cons, List.map_cons, hidof]
    by_cases hmem : s ∈ σ.collectedPosts.map PostData.postId
    · rw [extractPostData_skip σ e s hid hs hmem, ih σ hrest]
      congr 1
      rw [newIds, if_pos hmem]
    · rw [extractPostData_add σ e s hid hs hsh hmem,
        ih ⟨σ.collectedPosts ++ [extractFields s e],
          σ.currentBatch ++ [extractFields s e], σ.cumulativeCount⟩ hrest]
      have hpid : (extractFields s e).postId = s := rfl
      simp only [List.map_append, List.map_cons, List.map_nil, hpid]
      rw [newIds, if_neg hmem, List.append_assoc]
      congr 1
      rw [List.singleton_append]
      congr 1
      exact newIds_congr (rest.map idOf)
        (σ.collectedPosts.map PostData.postId ++ [s])
        (s :: σ.collectedPosts.map PostData.postId)
        (fun x => by simp [or_comm])

/-- `newIds` counts exactly the distinct ids not seen before. -/
theorem newIds_length (l : List String) : ∀ seen : List String,
    (newIds seen l).length = (l.toFinset \ seen.toFinset).card := by
  induction l with
  | nil => intro seen; simp [newIds]
  | cons i rest ih =>
    intro seen
    simp only [newIds, List.toFinset_cons]
    by_cases hm : i ∈ seen
    · rw [if_pos hm, ih seen,
        Finset.insert_sdiff_of_mem _ (List.mem_toFinset.mpr hm)]
    · rw [if_neg hm, Finset.insert_sdiff_of_not_mem _
        (fun hx => hm (List.mem_toFinset.mp hx))]
      simp only [List.length_cons, ih (i :: seen), List.toFinset_cons,
        Finset.sdiff_insert]
      by_cases hir : i ∈ rest.toFinset \ seen.toFinset
      · rw [Finset.card_erase_of_mem hir, Finset.insert_eq_self.mpr hir]
        have hpos : 0 < (rest.toFinset \ seen.toFinset).card :=
          Finset.card_pos.mpr ⟨i, hir⟩
        omega
      · rw [Finset.erase_eq_of_not_mem hir, Finset.card_insert_of_not_mem hir]

/-- `find?` through an append whose left part already finds the record. -/
theorem find?_append_some {p : PostData → Bool} {l1 l2 : List PostData}
    {r : PostData} (h : l1.find? p = some r) : (l1 ++ l2).find? p = some r := by
  rw [List.find?_append, h]; rfl

/-- Once a record for `pid` is in the store, no later extraction call
replaces it: `find?` keeps returning the original record. -/
theorem foldl_extract_find_preserve (elems : List PostElement) (σ : ScrState)
    (pid : String) (r : PostData)
    (h : σ.collectedPosts.find? (fun p => p.postId == pid) = some r) :
    (elems.foldl extractPostData σ).collectedPosts.find?
        (fun p => p.postId == pid) = some r := by
  induction elems generalizing σ with
  | nil => exact h
  | cons e rest ih =>
    simp only [List.foldl_cons]
    rcases extractPostData_shape σ e with hsk | ⟨pd, hst⟩
    · rw [hsk]; exact ih σ h
    · rw [hst]
      exact ih ⟨σ.collectedPosts ++ [pd], σ.currentBatch ++ [pd],
        σ.cumulativeCount⟩ (find?_append_some h)

/-- If no record for `pid` is stored yet, the record `find?` returns after
a sequence of extraction calls on valid elements is the one extracted from
the FIRST element sighted with that id. -/
theorem foldl_extract_find_first (elems : List PostElement) (σ : ScrState)
    (pid : String) (hvalid : ∀ e ∈ elems, validElement e = true)
    (hnone : σ.collectedPosts.find? (fun p => p.postId == pid) = none) :
    (elems.foldl extractPostData σ).collectedPosts.find?
        (fun p => p.postId == pid)
      = (elems.find? (fun e => e.id == some pid)).map
          (fun e => extractFields pid e) := by
  induction elems generalizing σ with
  | nil => simpa using hnone
  | cons e rest ih =>
    obtain ⟨s, hid, hs, hsh⟩ := validElement_spec e (hvalid e (by simp))
    have hrest : ∀ x ∈ rest, validElement x = true :=
      fun x hx => hvalid x (List.mem_cons_of_mem _ hx)
    simp only [List.foldl_cons]
    by_cases hmem : s ∈ σ.collectedPosts.map PostData.postId
    · have hspid : s ≠ pid := by
        intro hEq
        subst hEq
        obtain ⟨p, hp, hps⟩ := List.mem_map.mp hmem
        have := List.find?_eq_none.mp hnone p hp
        simp [hps] at this
      rw [extractPostData_skip σ e s hid hs hmem,
        List.find?_cons_of_neg _ (by simp [hid, hspid])]
      exact ih σ hrest hnone
    · by_cases hspid : s = pid
      · subst hspid
        rw [extractPostData_add σ e s hid hs hsh hmem,
          List.find?_cons_of_pos _ (by simp [hid])]
        apply foldl_extract_find_preserve
        rw [List.find?_append, hnone]
        simp [show (extractFields s e).postId = s from rfl]
      · rw [extractPostData_add σ e s hid hs hsh hmem,
          List.find?_cons_of_neg _ (by simp [hid, hspid])]
        apply ih _ hrest
        rw [List.find?_append, hnone]
        simp [show (extractFields s e).postId = s from rfl, hspid]

/-- Claim C3: over any sequence of extraction calls on elements that the
extractor accepts (non-empty id, shadow attached), starting from the fresh
store: (a) the final store size equals the number of distinct identifiers
seen; (b) the size is the same for any permutation of the call sequence;
(c) for every id, the stored record is the one extracted from the first
element sighted with that id — later sightings never modify or replace it. -/
theorem C3_dedup_idempotence (elems : List PostElement)
    (h : ∀ e ∈ elems, validElement e = true) :
    ((elems.foldl extractPostData initialScrState).collectedPosts.length
        = ((elems.map idOf).toFinset).card)
    ∧ (∀ elems2, elems.Perm elems2 →
        (elems2.foldl extractPostData initialScrState).collectedPosts.length
          = ((elems.map idOf).toFinset).card)
    ∧ (∀ pid : String,
        (elems.foldl extractPostData initialScrState).collectedPosts.find?
            (fun p => p.postId == pid)
          = (elems.find? (fun e => e.id == some pid)).map
              (fun e => extractFields pid e)) := by
  have key : ∀ l : List PostElement, (∀ e ∈ l, validElement e = true) →
      (l.foldl extractPostData initialScrState).collectedPosts.length
        = ((l.map idOf).toFinset).card := by
    intro l hl
    have hids := congrArg List.length (foldl_extract_ids l initialScrState hl)
    simp only [List.length_map] at hids
    rw [hids]
    have e2 : initialScrState.collectedPosts = [] := rfl
    simp only [e2, List.map_nil, List.nil_append]
    rw [newIds_length]
    simp
  refine ⟨key elems h, ?_, ?_⟩
  · intro elems2 hperm
    rw [key elems2 (fun e he => h e (hperm.mem_iff.mpr he)),
      List.toFinset_eq_of_perm _ _ (hperm.map idOf)]
  · intro pid
    exact foldl_extract_find_first elems initialScrState pid h rfl

/-- Concrete elements for the C3 witness: two sightings of id `"t3_a"`
(with different titles) around one of id `"t3_b"`. -/
def e3a : PostElement := ⟨some "t3_a", true, some "first", none, none, none, none⟩

/-- Second distinct element for the C3 witness. -/
def e3b : PostElement := ⟨some "t3_b", true, some "other", none, none, none, none⟩

/-- Duplicate-id element for the C3 witness. -/
def e3c : PostElement := ⟨some "t3_a", true, some "later", none, none, none, none⟩

/-- Witness for C3 at a concrete call sequence with a repeated id. -/
theorem C3_dedup_idempotence_witness :
    (∀ e ∈ [e3a, e3b, e3c], validElement e = true)
    ∧ ((([e3a, e3b, e3c].foldl extractPostData
            initialScrState).collectedPosts.length
          = (([e3a, e3b, e3c].map idOf).toFinset).card)
        ∧ (∀ elems2, [e3a, e3b, e3c].Perm elems2 →
            (elems2.foldl extractPostData initialScrState).collectedPosts.length
              = (([e3a, e3b, e3c].map idOf).toFinset).card)
        ∧ (∀ pid : String,
            ([e3a, e3b, e3c].foldl extractPostData
                initialScrState).collectedPosts.find?
                (fun p => p.postId == pid)
              = ([e3a, e3b, e3c].find? (fun e => e.id == some pid)).map
                  (fun e => extractFields pid e))) :=
  ⟨by decide, C3_dedup_idempotence [e3a, e3b, e3c] (by decide)⟩

/-! ## CSV round-trip lemmas (for claim C4) -/

/-- Unfolding `scanQuoted` past an ordinary (non-quote) character. -/
theorem scanQuoted_cons_ne (c : Char) (l : List Char) (h : ¬ c = '"') :
    scanQuoted (c :: l) = Option.map (fun p => (c :: p.1, p.2)) (scanQuoted l) := by
  rw [scanQuoted.eq_def]; simp [h]

/-- Scanning a quote-doubled field body up to its closing quote undoes the
doubling, provided the input does not continue with another quote. -/
theorem scanQuoted_escQ (s : List Char) : ∀ rest : List Char,
    (∀ d, rest.head? = some d → d ≠ '"') →
    scanQuoted (escQ s ++ '"' :: rest) = some (s, rest) := by
  induction s with
  | nil =>
    intro rest hrest
    cases rest with
    | nil => simp [escQ, scanQuoted]
    | cons d rest2 =>
      have hd : d ≠ '"' := hrest d rfl
      simp [escQ, scanQuoted, hd]
  | cons c t ih =>
    intro rest hrest
    by_cases hcq : c = '"'
    · subst hcq
      simp only [escQ, if_pos rfl, List.cons_append]
      simp [scanQuoted, ih rest hrest]
    · simp only [escQ, if_neg hcq, List.cons_append]
      rw [scanQuoted_cons_ne c _ hcq, ih rest hrest]
      rfl

/-- Scanning a quote-free field body (written without doubling) up to its
closing quote returns it unchanged. -/
theorem scanQuoted_noQuote (s : List Char) : ∀ rest : List Char,
    (∀ c ∈ s, c ≠ '"') → (∀ d, rest.head? = some d → d ≠ '"') →
    scanQuoted (s ++ '"' :: rest) = some (s, rest) := by
  induction s with
  | nil =>
    intro rest _ hrest
    cases rest with
    | nil => simp [scanQuoted]
    | cons d rest2 =>
      have hd : d ≠ '"' := hrest d rfl
      simp [scanQuoted, hd]
  | cons c t ih =>
    intro rest hs hrest
    have hcq : c ≠ '"' := hs c (by simp)
    simp only [List.cons_append]
    rw [scanQuoted_cons_ne c _ hcq, ih rest (fun x hx => hs x (by simp [hx])) hrest]
    rfl

/-- A quoted, quote-doubled field followed by a comma parses back. -/
theorem parseField_comma (s rest2 : List Char) :
    parseField ('"' :: (escQ s ++ '"' :: ',' :: rest2)) = some (s, ',' :: rest2) := by
  simp [parseField,
    scanQuoted_escQ s (',' :: rest2) (by intro d hd; simp at hd; subst hd; decide)]

/-- A quoted quote-free field followed by a comma parses back. -/
theorem parseField_comma_noQuote (s rest2 : List Char) (hs : ∀ c ∈ s, c ≠ '"') :
    parseField ('"' :: (s ++ '"' :: ',' :: rest2)) = some (s, ',' :: rest2) := by
  simp [parseField,
    scanQuoted_noQuote s (',' :: rest2) hs
      (by intro d hd; simp at hd; subst hd; decide)]

/-- The last field of a row: quote-free, quoted, then the row newline. -/
theorem parseField_newline_noQuote (s : List Char) (hs : ∀ c ∈ s, c ≠ '"') :
    parseField ('"' :: (s ++ ['"', '\n'])) = some (s, ['\n']) := by
  simp [parseField,
    scanQuoted_noQuote s ['\n'] hs (by intro d hd; simp at hd; subst hd; decide)]

/-- A record whose score field contains an embedded quote character, as the
claim quantifies over all records with the five string fields. -/
def r4cex : PostData := ⟨"p1", "t", "c", "1\"2", "3", "No flair"⟩

/-- Claim C4, counterexample: the claim asserts that in every encoded
record all five fields are quote-doubled so that an RFC-4180 parser
reproduces the original values. At `r4cex` (score `1"2`) the produced row
is not the all-fields-escaped row, and the RFC-4180 parser fails to
reproduce the record's fields (the bare quote ends the field early). -/
theorem C4_escaping_counterexample :
    csvRow r4cex ≠ csvRowSpec r4cex
    ∧ parseRow5 (csvRow r4cex)
        ≠ some [r4cex.postId.data, r4cex.title.data, r4cex.content.data,
            r4cex.score.data, r4cex.comments.data] := by
  constructor
  · decide
  · decide

/-- Claim C4, amended: in the delimited-text encoding the post id, title
and content fields have every embedded quote doubled and all five fields
are quote-wrapped, but the score and comment-count fields are interpolated
without quote-doubling; consequently a standard RFC-4180 parser reproduces
every original field value exactly for precisely those records whose score
and comment-count contain no quote character (title, content and id may
contain any characters, including quotes, commas and newlines). -/
theorem C4_escaping_amended (post : PostData)
    (hs : ∀ c ∈ post.score.data, c ≠ '"')
    (hc : ∀ c ∈ post.comments.data, c ≠ '"') :
    generateCSVFromArray [post]
        = String.mk ("Post ID,Title,Content,Votes,Comments\n".data ++ csvRow post)
    ∧ parseRow5 (csvRow post)
        = some [post.postId.data, post.title.data, post.content.data,
            post.score.data, post.comments.data] := by
  constructor
  · rfl
  · simp only [csvRow, parseRow5, parseField_comma, Option.bind_eq_bind,
      Option.some_bind, expectComma, if_pos, parseField_comma_noQuote _ _ hs,
      parseField_newline_noQuote _ hc]

/-- The specification's own example record: title `He said "hi"`. -/
def r4wit : PostData := ⟨"abc123", "He said \"hi\"", "body text", "10", "2", "No flair"⟩

/-- Witness for the amended C4 at the spec's example record. -/
theorem C4_escaping_amended_witness :
    (∀ c ∈ r4wit.score.data, c ≠ '"') ∧ (∀ c ∈ r4wit.comments.data, c ≠ '"')
    ∧ (generateCSVFromArray [r4wit]
          = String.mk ("Post ID,Title,Content,Votes,Comments\n".data ++ csvRow r4wit)
        ∧ parseRow5 (csvRow r4wit)
            = some [r4wit.postId.data, r4wit.title.data, r4wit.content.data,
                r4wit.score.data, r4wit.comments.data]) :=
  ⟨by decide, by decide, C4_escaping_amended r4wit (by decide) (by decide)⟩

/-- A post element with a two-paragraph body, for the C5 counterexample
and witness. -/
def e5cex : PostElement :=
  ⟨some "t3_x", true, some "T", some ["a", "b"], none, none, none⟩

/-- Claim C5, counterexample: the claim says paragraph texts are joined
with a blank line between consecutive paragraphs, but content.js (line 48)
joins with a single newline: at a present body container holding
paragraphs `a` and `b` the extracted content is `"a\nb"`, not the
blank-line join `"a\n\nb"`. -/
theorem C5_content_counterexample :
    (extractFields "t3_x" e5cex).content = "a\nb"
    ∧ (extractFields "t3_x" e5cex).content
        ≠ String.intercalate "\n\n" (["a", "b"].map jsTrim) := by
  constructor
  · decide
  · decide

/-- Claim C5, amended: when the body container is present, the content.js
variant's content field is the trimmed paragraph texts joined with a
SINGLE newline, while the part_001/part_002 variants join with a blank
line (`"\n\n"`); when the container is absent every variant yields the
sentinel `"Not found"`. -/
theorem C5_content_amended :
    (∀ (pid : String) (e : PostElement) (ps : List String),
        e.bodyParagraphs = some ps →
          (extractFields pid e).content = String.intercalate "\n" (ps.map jsTrim)
          ∧ extractContentV1 e = String.intercalate "\n\n" (ps.map jsTrim))
    ∧ (∀ (pid : String) (e : PostElement), e.bodyParagraphs = none →
        (extractFields pid e).content = "Not found"
        ∧ extractContentV1 e = "Not found") := by
  constructor
  · intro pid e ps hps
    exact ⟨by simp [extractFields, hps], by simp [extractContentV1, hps]⟩
  · intro pid e hnone
    exact ⟨by simp [extractFields, hnone], by simp [extractContentV1, hnone]⟩

/-- Witness for the amended C5 at the concrete two-paragraph element. -/
theorem C5_content_amended_witness :
    e5cex.bodyParagraphs = some ["a", "b"]
    ∧ ((extractFields "t3_x" e5cex).content
          = String.intercalate "\n" (["a", "b"].map jsTrim)
        ∧ extractContentV1 e5cex
          = String.intercalate "\n\n" (["a", "b"].map jsTrim)) :=
  ⟨rfl, C5_content_amended.1 "t3_x" e5cex ["a", "b"] rfl⟩

/-- Claim C7: a post element with an id and attached shadow content whose
vote indicator is absent is still extracted successfully (the record is
registered), and its score field is exactly the string `"Not found"` —
which in particular is not the empty string; the embedding's extraction is
a total function, so no error is thrown. -/
theorem C7_score_sentinel (σ : ScrState) (e : PostElement) (pid : String)
    (h1 : e.id = some pid) (h2 : pid ≠ "") (h3 : e.shadowAttached = true)
    (h4 : σ.collectedPosts.any (fun p => p.postId == pid) = false)
    (h5 : e.scoreEl = none) :
    (extractPostData σ e).collectedPosts
        = σ.collectedPosts ++ [extractFields pid e]
    ∧ (extractFields pid e).score = "Not found"
    ∧ ("Not found" : String) ≠ "" := by
  refine ⟨?_, ?_, by decide⟩
  · simp [extractPostData, h1, h2, h4, h3]
  · simp [extractFields, h5]

/-- A valid element with no vote indicator, for the C7 witness. -/
def e7wit : PostElement := ⟨some "t3_s", true, some "T", none, none, none, none⟩

/-- Witness for C7 at a concrete element with no vote indicator. -/
theorem C7_score_sentinel_witness :
    e7wit.id = some "t3_s" ∧ ("t3_s" : String) ≠ ""
    ∧ e7wit.shadowAttached = true
    ∧ initialScrState.collectedPosts.any (fun p => p.postId == "t3_s") = false
    ∧ e7wit.scoreEl = none
    ∧ ((extractPostData initialScrState e7wit).collectedPosts
          = initialScrState.collectedPosts ++ [extractFields "t3_s" e7wit]
        ∧ (extractFields "t3_s" e7wit).score = "Not found"
        ∧ ("Not found" : String) ≠ "") :=
  ⟨rfl, by decide, rfl, rfl, rfl,
    C7_score_sentinel initialScrState e7wit "t3_s" rfl (by decide) rfl rfl rfl⟩

/-- Claim C9: the two filenames are the source context, the timestamp and
the record count joined by underscores plus the format extension; in
particular for context `mentalhealth`, timestamp `2024-01-20_03-15-00`
and a 42-record batch they are exactly the two quoted names. -/
theorem C9_filename_determinism (batchPosts : List PostData)
    (h : batchPosts.length = 42) :
    autoUploadBatchFileNames "mentalhealth" "2024-01-20_03-15-00" batchPosts
        = ("mentalhealth_2024-01-20_03-15-00_42.csv",
           "mentalhealth_2024-01-20_03-15-00_42.json")
    ∧ (∀ (sub ts : String) (b : List PostData),
        autoUploadBatchFileNames sub ts b
          = (sub ++ "_" ++ ts ++ "_" ++ toString b.length ++ ".csv",
             sub ++ "_" ++ ts ++ "_" ++ toString b.length ++ ".json")) := by
  refine ⟨?_, fun sub ts b => rfl⟩
  simp only [autoUploadBatchFileNames, h]
  decide

/-- A 42-record batch for the C9 witness. -/
def batch42 : List PostData :=
  List.replicate 42 ⟨"p", "t", "c", "1", "0", "No flair"⟩

/-- Witness for C9 at a concrete 42-record batch. -/
theorem C9_filename_determinism_witness :
    batch42.length = 42
    ∧ (autoUploadBatchFileNames "mentalhealth" "2024-01-20_03-15-00" batch42
          = ("mentalhealth_2024-01-20_03-15-00_42.csv",
             "mentalhealth_2024-01-20_03-15-00_42.json")
        ∧ (∀ (sub ts : String) (b : List PostData),
            autoUploadBatchFileNames sub ts b
              = (sub ++ "_" ++ ts ++ "_" ++ toString b.length ++ ".csv",
                 sub ++ "_" ++ ts ++ "_" ++ toString b.length ++ ".json"))) :=
  ⟨by decide, C9_filename_determinism batch42 (by decide)⟩

/-- Claim C10: if the per-batch time threshold has elapsed at a cycle
whose post-extraction active batch is empty, the flush still occurs and
uploads two zero-record files: the delimited file is exactly the header
row, the structured file is the empty array `[]`, and both filenames carry
record count 0. -/
theorem C10_empty_batch_flush (p : RunParams) (ls : LoopState)
    (ci : CycleInput) (sub ts : String)
    (hT : ci.tCheck - ls.batchStartTime ≥ p.batchTimeMs)
    (hB : (ci.posts.foldl extractPostData ls.st).currentBatch = []) :
    (runCycle p ls ci).2 = some []
    ∧ generateCSVFromArray [] = "Post ID,Title,Content,Votes,Comments\n"
    ∧ getJSONData [] = "[]"
    ∧ autoUploadBatchFileNames sub ts []
        = (sub ++ "_" ++ ts ++ "_0.csv", sub ++ "_" ++ ts ++ "_0.json") := by
  refine ⟨?_, rfl, rfl, ?_⟩
  · simp only [runCycle]
    rw [if_pos (Or.inl hT)]
    simp [hB]
  · simp only [autoUploadBatchFileNames, String.append_assoc]
    rfl

/-- Witness inputs for C10: an empty-batch state, no rendered posts, and a
cycle whose flush-check time reading is past the batch deadline. -/
def ls10 : LoopState := ⟨initialScrState, 0⟩

/-- Cycle input for the C10 witness. -/
def ci10 : CycleInput := ⟨[], 1, 70000, 70001⟩

/-- Run parameters for the C10 witness: one-minute batch time. -/
def p10 : RunParams := ⟨300000, 1000, 60000, 100⟩

/-- Witness for C10 at concrete inputs. -/
theorem C10_empty_batch_flush_witness :
    ci10.tCheck - ls10.batchStartTime ≥ p10.batchTimeMs
    ∧ (ci10.posts.foldl extractPostData ls10.st).currentBatch = []
    ∧ ((runCycle p10 ls10 ci10).2 = some []
        ∧ generateCSVFromArray [] = "Post ID,Title,Content,Votes,Comments\n"
        ∧ getJSONData [] = "[]"
        ∧ autoUploadBatchFileNames "mentalhealth" "2024-01-20_03-15-00" []
            = ("mentalhealth" ++ "_" ++ "2024-01-20_03-15-00" ++ "_0.csv",
               "mentalhealth" ++ "_" ++ "2024-01-20_03-15-00" ++ "_0.json")) :=
  ⟨by decide, rfl,
    C10_empty_batch_flush p10 ls10 ci10 "mentalhealth" "2024-01-20_03-15-00"
      (by decide) rfl⟩

/-! ## State-lifecycle lemmas (for claim C6) -/

/-- A cycle only ever appends to the store. -/
theorem runCycle_store_extend (p : RunParams) (ls : LoopState) (ci : CycleInput) :
    ∃ suf, (runCycle p ls ci).1.st.collectedPosts
      = ls.st.collectedPosts ++ suf := by
  obtain ⟨suf, hs⟩ := foldl_extract_store_extend ci.posts ls.st
  simp only [runCycle]
  split_ifs with h
  · exact ⟨suf, hs⟩
  · exact ⟨suf, hs⟩

/-- A cycle never decreases the cumulative count. -/
theorem runCycle_cumulative_mono (p : RunParams) (ls : LoopState)
    (ci : CycleInput) :
    ls.st.cumulativeCount ≤ (runCycle p ls ci).1.st.cumulativeCount := by
  have hc := foldl_extract_cumulative ci.posts ls.st
  simp only [runCycle]
  split_ifs with h
  · dsimp only; omega
  · dsimp only; omega

/-- The loop only ever appends to the store. -/
theorem runLoop_store_extend (p : RunParams) (t0 : Nat)
    (cycles : List CycleInput) : ∀ ls : LoopState,
    ∃ suf, (runLoop p t0 ls cycles).1.st.collectedPosts
      = ls.st.collectedPosts ++ suf := by
  induction cycles with
  | nil => intro ls; exact ⟨[], by simp [runLoop]⟩
  | cons ci rest ih =>
    intro ls
    simp only [runLoop]
    split_ifs with hg
    · obtain ⟨s1, h1⟩ := runCycle_store_extend p ls ci
      obtain ⟨s2, h2⟩ := ih (runCycle p ls ci).1
      exact ⟨s1 ++ s2, by dsimp only; rw [h2, h1, List.append_assoc]⟩
    · exact ⟨[], by simp⟩

/-- The loop never decreases the cumulative count. -/
theorem runLoop_cumulative_mono (p : RunParams) (t0 : Nat)
    (cycles : List CycleInput) : ∀ ls : LoopState,
    ls.st.cumulativeCount ≤ (runLoop p t0 ls cycles).1.st.cumulativeCount := by
  induction cycles with
  | nil => intro ls; simp [runLoop]
  | cons ci rest ih =>
    intro ls
    simp only [runLoop]
    split_ifs with hg
    · have h1 := runCycle_cumulative_mono p ls ci
      have h2 := ih (runCycle p ls ci).1
      dsimp only
      omega
    · simp

/-- Claim C6, amended: the batched variants' store, batch and cumulative
count are module globals created at script injection, not at run start,
and a run never reinitialises them — a whole run only appends to the
store and only grows the cumulative count, whatever state it starts from,
so a second run started without reloading the page observes the previous
run's store and count (and, in content.js, even the already-flushed
remainder batch). Only part_002's `collectPosts` clears its store at run
start (line 317): its result is independent of the store's prior value. -/
theorem C6_state_lifecycle :
    (∀ (p : RunParams) (startNow : Nat) (g : ScrState)
        (cycles : List CycleInput),
        (∃ suf, (collectPostsBatched p startNow g cycles).1.collectedPosts
            = g.collectedPosts ++ suf)
        ∧ g.cumulativeCount
            ≤ (collectPostsBatched p startNow g cycles).1.cumulativeCount)
    ∧ (∀ (store1 store2 : List PostDataV2) (maxT target t0 : Nat)
        (cycles : List CycleInputV2),
        collectPosts store1 maxT target t0 cycles
          = collectPosts store2 maxT target t0 cycles) := by
  constructor
  · intro p startNow g cycles
    constructor
    · obtain ⟨suf, hs⟩ := runLoop_store_extend p startNow cycles ⟨g, startNow⟩
      simp only [collectPostsBatched]
      split_ifs with hb
      · exact ⟨suf, hs⟩
      · exact ⟨suf, hs⟩
    · have hm := runLoop_cumulative_mono p startNow cycles ⟨g, startNow⟩
      dsimp only at hm
      simp only [collectPostsBatched]
      split_ifs with hb
      · dsimp only; omega
      · dsimp only; omega
  · intro store1 store2 maxT target t0 cycles
    rfl

/-- The element collected in the C6 counterexample run. -/
def e6cex : PostElement := ⟨some "t3_c6", true, some "T", none, none, none, none⟩

/-- Parameters of the C6 counterexample run: thresholds high enough that
only the final remainder flush fires. -/
def p6cex : RunParams := ⟨1000, 10, 1000, 100⟩

/-- The single cycle of the C6 counterexample run. -/
def cycles6cex : List CycleInput := [⟨[e6cex], 1, 2, 3⟩]

/-- Claim C6, counterexample: the claim asserts a second run without a
page reload observes an empty store, an empty batch and a zero cumulative
count. After the concrete run below, the module globals — exactly the
state a second run starts from, since nothing reinitialises them — hold a
store of size 1, cumulative count 1, and (content.js's final flush not
clearing it) a non-empty active batch. -/
theorem C6_fresh_state_counterexample :
    (collectPostsBatched p6cex 0 initialScrState cycles6cex).1.collectedPosts.length = 1
    ∧ (collectPostsBatched p6cex 0 initialScrState cycles6cex).1.cumulativeCount = 1
    ∧ (collectPostsBatched p6cex 0 initialScrState cycles6cex).1.currentBatch ≠ [] := by
  refine ⟨by decide, by decide, by decide⟩

/-! ## Base64 / UTF-8 lemmas (for claim C8) -/

/-- `Char.ofNat` of a valid scalar value round-trips through `toNat`. -/
theorem char_toNat_ofNat (n : Nat) (h : n.isValidChar) :
    (Char.ofNat n).toNat = n := by
  simp only [Char.ofNat, dif_pos h, Char.ofNatAux, Char.toNat]
  simp [UInt32.toNat]

/-- Every scalar value is below `0x110000`. -/
theorem char_toNat_lt (c : Char) : c.toNat < 1114112 := by
  rcases c.valid with h | h
  · exact Nat.lt_trans h (by decide)
  · exact h.2

/-- The uppercase hex digits round-trip through `hexVal` and satisfy the
regex class `[0-9A-F]`. -/
theorem hexDigit_props : ∀ n < 16,
    isHexUpper (hexDigit n) = true ∧ hexVal (hexDigit n) = n := by decide

/-- UTF-8 code units are bytes. -/
theorem utf8EncodeChar_lt (c : Char) : ∀ b ∈ utf8EncodeChar c, b < 256 := by
  have hv := char_toNat_lt c
  intro b hb
  simp only [utf8EncodeChar] at hb
  split_ifs at hb with h1 h2 h3 <;> simp at hb <;> omega

/-- A one-byte character encodes as its own code. -/
theorem utf8EncodeChar_ascii (c : Char) (h : c.toNat < 128) :
    utf8EncodeChar c = [c.toNat] := by
  simp [utf8EncodeChar, h]

/-- `percentDecode` passes an ordinary (non-`%`) character through. -/
theorem percentDecode_cons_ne (c : Char) (l : List Char) (hc : ¬ c = '%') :
    percentDecode (c :: l) = c :: percentDecode l := by
  rcases l with _ | ⟨h1, _ | ⟨h2, rest2⟩⟩ <;>
    (rw [percentDecode.eq_def]; simp [hc])

/-- `percentDecode` turns one `%HH` escape back into the byte's char. -/
theorem percentDecode_encByte (b : Nat) (hb : b < 256) (rest : List Char) :
    percentDecode (percentEncodeByte b ++ rest)
      = Char.ofNat b :: percentDecode rest := by
  have h1 := hexDigit_props (b / 16) (by omega)
  have h2 := hexDigit_props (b % 16) (by omega)
  simp only [percentEncodeByte, List.cons_append, List.nil_append]
  rw [percentDecode.eq_def]
  simp only [h1.1, h2.1, Bool.and_self, if_pos, h1.2, h2.2]
  congr 2
  omega

/-- `percentDecode` undoes the percent-encoding of a byte sequence. -/
theorem percentDecode_bytesEnc (bytes : List Nat) (rest : List Char)
    (h : ∀ b ∈ bytes, b < 256) :
    (percentDecode (bytes.flatMap percentEncodeByte ++ rest)).map Char.toNat
      = bytes ++ (percentDecode rest).map Char.toNat := by
  induction bytes with
  | nil => simp
  | cons b bs ih =>
    have hb : b < 256 := h b (by simp)
    simp only [List.flatMap_cons, List.append_assoc]
    rw [percentDecode_encByte b hb _]
    simp only [List.map_cons]
    rw [char_toNat_ofNat b (Or.inl (by omega)),
      ih (fun x hx => h x (by simp [hx]))]
    rfl

/-- Unreserved characters are ASCII and are not `%`. -/
theorem isUnreservedURI_lt (c : Char) (h : isUnreservedURI c = true) :
    c.toNat < 128 ∧ c.toNat ≠ 37 := by
  simp only [isUnreservedURI, List.elem_iff, Bool.or_eq_true,
    Bool.and_eq_true, decide_eq_true_eq, List.mem_cons,
    List.not_mem_nil, or_false] at h
  constructor <;> omega

/-- Characters other than `%` (by code) are not `%`. -/
theorem ne_percent_of_toNat (c : Char) (h : c.toNat ≠ 37) : ¬ c = '%' :=
  fun hc => h (by rw [hc]; rfl)

/-- Decoding the `encodeURIComponent` output of one character yields
exactly that character's UTF-8 bytes. -/
theorem percentDecode_encChar (c : Char) (rest : List Char) :
    (percentDecode (encodeURIComponentChar c ++ rest)).map Char.toNat
      = utf8EncodeChar c ++ (percentDecode rest).map Char.toNat := by
  by_cases hu : isUnreservedURI c
  · obtain ⟨hlt, hne⟩ := isUnreservedURI_lt c hu
    simp only [encodeURIComponentChar, if_pos hu, List.cons_append,
      List.nil_append]
    rw [percentDecode_cons_ne c rest (ne_percent_of_toNat c hne)]
    rw [utf8EncodeChar_ascii c hlt]
    rfl
  · simp only [encodeURIComponentChar, if_neg hu]
    exact percentDecode_bytesEnc (utf8EncodeChar c) rest (utf8EncodeChar_lt c)

/-- Decoding the `encodeURIComponent` output of a character sequence
yields exactly its UTF-8 byte sequence (with any tail preserved). -/
theorem percentDecode_encodeURI_aux (l : List Char) : ∀ rest : List Char,
    (percentDecode (l.flatMap encodeURIComponentChar ++ rest)).map Char.toNat
      = l.flatMap utf8EncodeChar ++ (percentDecode rest).map Char.toNat := by
  induction l with
  | nil => intro rest; simp
  | cons c t ih =>
    intro rest
    simp only [List.flatMap_cons, List.append_assoc]
    rw [percentDecode_encChar c _, ih rest]

/-- The char codes after the `replace` step are the UTF-8 bytes. -/
theorem percentDecode_encodeURIComponent (s : String) :
    (percentDecode (encodeURIComponent s)).map Char.toNat = utf8Bytes s := by
  have h := percentDecode_encodeURI_aux s.data []
  simpa [encodeURIComponent, utf8Bytes, percentDecode] using h

/-- Claim C8: for every string of Unicode scalar values, the upload
content encoding `base64EncodeUnicode` equals the standard Base64
encoding of the string's UTF-8 byte sequence — the `encodeURIComponent` /
`%HH`-to-char / `btoa` pipeline is exactly Base64 over UTF-8 bytes, not
over raw UTF-16 code units. -/
theorem C8_base64_of_utf8 (str : String) :
    base64EncodeUnicode str = String.mk (base64Encode (utf8Bytes str)) := by
  simp only [base64EncodeUnicode, btoa]
  rw [percentDecode_encodeURIComponent str]
